import Mathlib

/-!
# metallb-health-sidecar: the scrape parser and the ConfigMap mutation

A shallow embedding of `main.go`.

Modelling conventions.

* A Go `string` is a `GoString`, a list of Unicode code points: response bodies
  are taken to be well-formed UTF-8 text.  The separators the program uses
  (`"\n"`, `" "`) and the comment marker (`"#"`) are one-byte ASCII strings, so
  splitting, cutting and prefix tests on code points agree with the byte-level
  library functions on such text.
* A non-nil Go `map[string]string` is a `GoMap`, an association list read with
  `GoMap.get` (first binding of the key) and written with `GoMap.set` (replace
  the binding of the key, or add one).  The nil map is `none` in
  `Option GoMap`: reading from it finds nothing, assigning to it panics.
* Errors carry exactly the data the Go error values carry.
* The HTTP exchange and the cluster API are the environment: their outcome is
  an input of the model (`HTTPResult`, `ClusterFault`, the stored record).
-/

namespace HealthSidecar

/-- A Go string, as a sequence of code points. -/
abbrev GoString := List Char

/-! ## Constants of `main.go` -/

/-- The constant `configStaleMetric`. -/
def configStaleMetric : GoString := "metallb_k8s_client_config_stale_bool".toList

/-- The constant `configLoadedMetric`. -/
def configLoadedMetric : GoString := "metallb_k8s_client_config_loaded_bool".toList

/-- The struct `metrics`. -/
structure metrics where
  configStale : Bool
  configLoaded : Bool
  deriving DecidableEq, Repr

/-! ## Library functions used by the program -/

/-- Go `unicode.IsSpace`: in Latin-1 the characters tab, line feed, vertical tab,
form feed, carriage return, space, U+0085 and U+00A0; above Latin-1 the code
points with the White_Space property. -/
def IsSpace (r : Char) : Bool :=
  let n := r.toNat
  if n ≤ 0xFF then
    n = 0x09 || n = 0x0A || n = 0x0B || n = 0x0C || n = 0x0D || n = 0x20 || n = 0x85 || n = 0xA0
  else
    n = 0x1680 || (0x2000 ≤ n && n ≤ 0x200A) || n = 0x2028 || n = 0x2029 || n = 0x202F
      || n = 0x205F || n = 0x3000

/-- Go `strings.TrimSpace`: the string without its leading and trailing white
space, as defined by `unicode.IsSpace`. -/
def TrimSpace (s : GoString) : GoString :=
  (s.dropWhile IsSpace).rdropWhile IsSpace

/-- Go `strings.HasPrefix`. -/
def HasPrefix (s pre : GoString) : Bool :=
  pre.isPrefixOf s

/-- Go `strings.IndexByte` for a one-byte separator: the index of its first
occurrence, `none` for Go's `-1`. -/
def Index (s : GoString) (sep : Char) : Option Nat :=
  match s with
  | [] => none
  | c :: cs => if c = sep then some 0 else (Index cs sep).map (· + 1)

/-- Go `strings.Cut` for a one-byte separator: the text before and after the
first occurrence of `sep` and `true`, or `(s, "", false)` when `sep` does not
occur. -/
def Cut (s : GoString) (sep : Char) : GoString × GoString × Bool :=
  match Index s sep with
  | some i => (s.take i, s.drop (i + 1), true)
  | none => (s, [], false)

/-- Go `strings.Split` for a one-byte separator: the substrings between the
occurrences of `sep`; the empty string gives one empty substring. -/
def Split (s : GoString) (sep : Char) : List GoString :=
  s.splitOn sep

/-- The error `*strconv.NumError` with `Err = strconv.ErrSyntax`: the function
that failed and the input it was given. -/
structure NumError where
  Func : GoString
  Num : GoString
  deriving DecidableEq, Repr

/-- Go `strconv.ParseBool`. -/
def ParseBool (str : GoString) : Except NumError Bool :=
  if str = "1".toList ∨ str = "t".toList ∨ str = "T".toList ∨ str = "true".toList
      ∨ str = "TRUE".toList ∨ str = "True".toList then
    .ok true
  else if str = "0".toList ∨ str = "f".toList ∨ str = "F".toList ∨ str = "false".toList
      ∨ str = "FALSE".toList ∨ str = "False".toList then
    .ok false
  else
    .error { Func := "ParseBool".toList, Num := str }

/-- Go `strconv.FormatBool`. -/
def FormatBool (b : Bool) : GoString :=
  if b then "true".toList else "false".toList

/-! ## Go maps -/

/-- A non-nil `map[string]string`. -/
abbrev GoMap := List (GoString × GoString)

/-- The map read `v, ok := m[k]`. -/
def GoMap.get (m : GoMap) (k : GoString) : Option GoString :=
  match m with
  | [] => none
  | (k', v') :: rest => if k' = k then some v' else GoMap.get rest k

/-- The map assignment `m[k] = v` on a non-nil map. -/
def GoMap.set (m : GoMap) (k v : GoString) : GoMap :=
  match m with
  | [] => [(k, v)]
  | (k', v') :: rest => if k' = k then (k, v) :: rest else (k', v') :: GoMap.set rest k v

/-- A run-time panic of the Go program. -/
inductive Panic where
  /-- The panic `assignment to entry in nil map`. -/
  | nilMapAssign
  deriving DecidableEq, Repr

/-- The map assignment `m[k] = v` on a map that may be nil: Go panics on a nil
map. -/
def mapAssign (m : Option GoMap) (k v : GoString) : Except Panic GoMap :=
  match m with
  | none => .error .nilMapAssign
  | some m => .ok (m.set k v)

/-! ## `getMetrics` -/

/-- The errors `getMetrics` returns. -/
inductive MetricsError where
  /-- The error `fmt.Errorf("error creating http request: %w", err)`. -/
  | createRequest
  /-- The error `fmt.Errorf("error executing http request: %w", err)`. -/
  | executeRequest
  /-- The error `fmt.Errorf("error reading body of metrics endpoint: %w", err)`. -/
  | readBody
  /-- The error `fmt.Errorf("metrics not found in response: %q", metric)`. -/
  | metricNotFound (metric : GoString)
  /-- The error `fmt.Errorf("unable to parse bool: %w", err)`, with `err` the
  error of `strconv.ParseBool`. -/
  | parseBool (err : NumError)
  deriving DecidableEq, Repr

/-- The body of the loop over the lines (lines 105-116): the line index after
one more line. -/
def scanLine (lines : GoMap) (line : GoString) : GoMap :=
  let line := TrimSpace line
  if HasPrefix line ['#'] then
    lines
  else
    match Cut line ' ' with
    | (key, value, true) => lines.set key value
    | (_, _, false) => lines

/-- The line index `lines` after the loop of lines 104-117. -/
def scanLines (raw : GoString) : GoMap :=
  (Split raw '\n').foldl scanLine []

/-- The closure `readBoolMetric` (lines 119-131) over the line index. -/
def readBoolMetric (lines : GoMap) (metric : GoString) : Except MetricsError Bool :=
  match lines.get metric with
  | none => .error (.metricNotFound metric)
  | some val =>
    match ParseBool val with
    | .error err => .error (.parseBool err)
    | .ok res => .ok res

/-- The parsing part of `getMetrics` (lines 98-146), on the body read. -/
def parseMetrics (raw : GoString) : Except MetricsError metrics :=
  let lines := scanLines raw
  match readBoolMetric lines configLoadedMetric with
  | .error err => .error err
  | .ok configLoaded =>
    match readBoolMetric lines configStaleMetric with
    | .error err => .error err
    | .ok configStale => .ok { configStale := configStale, configLoaded := configLoaded }

/-- What the HTTP exchange of `getMetrics` gives. -/
inductive HTTPResult where
  /-- The call `http.NewRequestWithContext` fails. -/
  | requestError
  /-- The call `http.DefaultClient.Do` fails. -/
  | transportError
  /-- The call `io.ReadAll` fails. -/
  | bodyReadError
  /-- The body is read in full. -/
  | body (raw : GoString)
  deriving DecidableEq, Repr

/-- The function `getMetrics`. -/
def getMetrics (http : HTTPResult) : Except MetricsError metrics :=
  match http with
  | .requestError => .error .createRequest
  | .transportError => .error .executeRequest
  | .bodyReadError => .error .readBody
  | .body raw => parseMetrics raw

/-! ## The scheduled job -/

/-- The object `corev1.ConfigMap`, with the fields the program uses; `Data` is
`none` for the nil map. -/
structure ConfigMap where
  Name : GoString
  Namespace : GoString
  Data : Option GoMap
  deriving DecidableEq, Repr

/-- The object `health` built at lines 56-61: the identity is set, the data
mapping is left nil. -/
def freshHealth : ConfigMap :=
  { Name := "health".toList, Namespace := "metallb-system".toList, Data := none }

/-- The mutate closure given to `controllerutil.CreateOrUpdate` (lines 62-66),
as a function of the sample `res` and of the object `health` it captures: two
map assignments on `health.Data`. -/
def mutateFn (res : metrics) (health : ConfigMap) : Except Panic ConfigMap :=
  match mapAssign health.Data "configStale".toList (FormatBool res.configStale) with
  | .error p => .error p
  | .ok d1 =>
    match mapAssign (some d1) "configLoaded".toList (FormatBool res.configLoaded) with
    | .error p => .error p
    | .ok d2 => .ok { health with Data := some d2 }

/-- The map comparison of `equality.Semantic.DeepEqual`: a nil map equals an
empty one, otherwise the same keys with the same values. -/
def mapDeepEqual (a b : Option GoMap) : Bool :=
  let x := a.getD []
  let y := b.getD []
  x.all (fun kv => decide (y.get kv.1 = x.get kv.1))
    && y.all (fun kv => decide (x.get kv.1 = y.get kv.1))

/-- The comparison `equality.Semantic.DeepEqual` on two ConfigMaps. -/
def DeepEqual (a b : ConfigMap) : Bool :=
  decide (a.Name = b.Name) && decide (a.Namespace = b.Namespace) && mapDeepEqual a.Data b.Data

/-- The cluster call that fails during a cycle, if one does. -/
inductive ClusterFault where
  /-- Every call is answered. -/
  | noFault
  /-- The read `c.Get` fails with an error other than NotFound. -/
  | getFails
  /-- The write `c.Create` or `c.Update` fails. -/
  | writeFails
  deriving DecidableEq, Repr

/-- An error returned by the cluster client. -/
inductive APIError where
  | getFailed
  | createFailed
  | updateFailed
  deriving DecidableEq, Repr

/-- The type `controllerutil.OperationResult`. -/
inductive OperationResult where
  | unchanged
  | created
  | updated
  deriving DecidableEq, Repr

/-- What can be observed of one run of the scheduled job. -/
inductive Event where
  /-- Line 50: `log.Error("unable to get metrics", "error", err)`. -/
  | logUnableToGetMetrics (err : MetricsError)
  /-- Line 54: `log.Info("retrieved metrics", "stale", ..., "loaded", ...)`. -/
  | logRetrievedMetrics (stale loaded : Bool)
  /-- Line 62: `controllerutil.CreateOrUpdate` is called. -/
  | createOrUpdate
  /-- The cluster call `c.Create(ctx, obj)`. -/
  | apiCreate (obj : ConfigMap)
  /-- The cluster call `c.Update(ctx, obj)`. -/
  | apiUpdate (obj : ConfigMap)
  /-- Line 68: `log.Error("unable to write to health config map", "error", err)`. -/
  | logUnableToWrite (err : APIError)
  /-- Line 72: `log.Info("successfully wrote health to config map")`. -/
  | logWrote
  /-- The job panics. -/
  | panicked (p : Panic)
  deriving DecidableEq, Repr

/-- How a call of `controllerutil.CreateOrUpdate` ends. -/
inductive UpsertOutcome where
  | panicked (p : Panic)
  | failed (err : APIError)
  | done (op : OperationResult)
  deriving DecidableEq, Repr

/-- The result of `controllerutil.CreateOrUpdate`: the write calls it made, the
stored record afterwards, and how it ended. -/
structure UpsertResult where
  writes : List Event
  record : Option ConfigMap
  outcome : UpsertOutcome
  deriving DecidableEq, Repr

/-- The function `controllerutil.CreateOrUpdate` of controller-runtime, on the
record stored under the key of `obj`: `Get`; when the record is not found,
mutate `obj` as it was passed and `Create` it; when it is found, mutate the
record read, and `Update` it unless the mutation left it `DeepEqual` to what
was read.  A panic of the mutate function propagates before any write. -/
def CreateOrUpdate (fault : ClusterFault) (record : Option ConfigMap) (obj : ConfigMap)
    (f : ConfigMap → Except Panic ConfigMap) : UpsertResult :=
  if fault = .getFails then
    { writes := [], record := record, outcome := .failed .getFailed }
  else
    match record with
    | none =>
      match f obj with
      | .error p => { writes := [], record := record, outcome := .panicked p }
      | .ok obj1 =>
        if fault = .writeFails then
          { writes := [.apiCreate obj1], record := record, outcome := .failed .createFailed }
        else
          { writes := [.apiCreate obj1], record := some obj1, outcome := .done .created }
    | some existing =>
      match f existing with
      | .error p => { writes := [], record := record, outcome := .panicked p }
      | .ok obj1 =>
        if DeepEqual existing obj1 then
          { writes := [], record := record, outcome := .done .unchanged }
        else if fault = .writeFails then
          { writes := [.apiUpdate obj1], record := record, outcome := .failed .updateFailed }
        else
          { writes := [.apiUpdate obj1], record := some obj1, outcome := .done .updated }

/-- The result of one run of the scheduled job: what happened, in order, and
the stored record afterwards. -/
structure CycleResult where
  events : List Event
  record : Option ConfigMap
  deriving DecidableEq, Repr

/-- The scheduled job (lines 44-73), as a function of what the HTTP exchange
gives, of the cluster fault of this cycle and of the stored record. -/
def cycle (http : HTTPResult) (fault : ClusterFault) (record : Option ConfigMap) :
    CycleResult :=
  match getMetrics http with
  | .error err => { events := [.logUnableToGetMetrics err], record := record }
  | .ok res =>
    let up := CreateOrUpdate fault record freshHealth (mutateFn res)
    let start := [Event.logRetrievedMetrics res.configStale res.configLoaded, Event.createOrUpdate]
    match up.outcome with
    | .panicked p => { events := start ++ up.writes ++ [.panicked p], record := up.record }
    | .failed err => { events := start ++ up.writes ++ [.logUnableToWrite err], record := up.record }
    | .done _ => { events := start ++ up.writes ++ [.logWrote], record := up.record }

/-! ## Vocabulary of the specification -/

/-- The spellings the specification lists for true. -/
def trueSpellings : List GoString :=
  ["1".toList, "t".toList, "T".toList, "TRUE".toList, "true".toList, "True".toList]

/-- The spellings the specification lists for false. -/
def falseSpellings : List GoString :=
  ["0".toList, "f".toList, "F".toList, "FALSE".toList, "false".toList, "False".toList]

/-- A line that carries no sample of a required metric: once surrounding white
space is set aside it is a comment, or has no space (a blank line has none), or
is a sample `name value` of a name other than the two required ones. -/
def otherLine (l : GoString) : Prop :=
  HasPrefix (TrimSpace l) ['#'] = true ∨ ' ' ∉ TrimSpace l ∨
    ∃ k v, TrimSpace l = k ++ ' ' :: v ∧ ' ' ∉ k ∧ k ≠ configLoadedMetric ∧ k ≠ configStaleMetric

/-- A line the parser is to tolerate: blank or white space only, or, once
trimmed, starting with `#` or free of spaces. -/
def toleratedLine (l : GoString) : Prop :=
  (∀ c ∈ l, IsSpace c = true) ∨ HasPrefix (TrimSpace l) ['#'] = true ∨ ' ' ∉ TrimSpace l

/-- The lines of a body joined again with newlines. -/
def joinLines (ls : List GoString) : GoString :=
  ['\n'].intercalate ls

/-- A line leaves the entry of `k` in the line index as it is. -/
def keepsKey (k l : GoString) : Prop :=
  ∀ m : GoMap, (scanLine m l).get k = m.get k

/-- The body of scenario S1, with a comment line and a sample of another metric
added. -/
def s1Body : GoString :=
  ("# HELP x\nmetallb_k8s_client_config_loaded_bool 1\nfoo 3\n"
    ++ "metallb_k8s_client_config_stale_bool 0\n").toList

/-- The body of scenario S3: the loaded gauge is indented, followed by three
spaces, and its value by two. -/
def s3Body : GoString :=
  ("# HELP ...\n\n  metallb_k8s_client_config_loaded_bool   true  \n"
    ++ "metallb_k8s_client_config_stale_bool false\n").toList

/-- The body of scenario S3 with one space between the name of the loaded gauge
and its value. -/
def s3BodyOneSpace : GoString :=
  ("# HELP ...\n\n  metallb_k8s_client_config_loaded_bool true  \n"
    ++ "metallb_k8s_client_config_stale_bool false\n").toList

/-- A body with the loaded gauge only, its value not a boolean spelling. -/
def loadedJunkBody : GoString :=
  "metallb_k8s_client_config_loaded_bool x\n".toList

/-- A body with the loaded gauge only, its value a boolean spelling (scenario
S2). -/
def loadedOnlyBody : GoString :=
  "metallb_k8s_client_config_loaded_bool 1\n".toList

/-- A body in which both gauges carry the same mixed-case token. -/
def mixedCaseBody : GoString :=
  ("metallb_k8s_client_config_loaded_bool tRuE\n"
    ++ "metallb_k8s_client_config_stale_bool tRuE\n").toList

/-- A body in which the loaded gauge occurs twice, first with a value that is
not a boolean spelling, then with one that is. -/
def repeatedBody : GoString :=
  ("metallb_k8s_client_config_loaded_bool junk\n"
    ++ "metallb_k8s_client_config_stale_bool 0\n"
    ++ "metallb_k8s_client_config_loaded_bool 1\n").toList

/-- A body in which the loaded gauge occurs twice, first with a boolean
spelling, then with a value that is not one. -/
def repeatedJunkLastBody : GoString :=
  ("metallb_k8s_client_config_loaded_bool 1\n"
    ++ "metallb_k8s_client_config_stale_bool 0\n"
    ++ "metallb_k8s_client_config_loaded_bool junk\n").toList

/-- The record of scenario S4: the ConfigMap exists with the single entry
`foo: bar`. -/
def s4Record : ConfigMap :=
  { Name := "health".toList, Namespace := "metallb-system".toList,
    Data := some [("foo".toList, "bar".toList)] }

/-- The data mapping scenario S4 expects after a cycle with both gauges true. -/
def s4Expected : GoMap :=
  [("foo".toList, "bar".toList), ("configLoaded".toList, "true".toList),
    ("configStale".toList, "true".toList)]

/-! ## Go maps: reads after writes -/

theorem GoMap.get_set (m : GoMap) (k v k' : GoString) :
    (GoMap.set m k v).get k' = if k' = k then some v else m.get k' := by
  induction m with
  | nil =>
    by_cases h : k' = k
    · simp [GoMap.set, GoMap.get, h]
    · have h' : ¬ k = k' := fun e => h e.symm
      simp [GoMap.set, GoMap.get, h, h']
  | cons p rest ih =>
    obtain ⟨a, b⟩ := p
    by_cases hak : a = k
    · subst hak
      by_cases h : k' = a
      · simp [GoMap.set, GoMap.get, h]
      · have h' : ¬ a = k' := fun e => h e.symm
        simp [GoMap.set, GoMap.get, h, h']
    · by_cases h : k' = k
      · subst h
        have hk : ¬ a = k' := hak
        simp [GoMap.set, GoMap.get, hak, ih]
      · by_cases ha : a = k'
        · simp [GoMap.set, GoMap.get, hak, ha, h]
        · simp [GoMap.set, GoMap.get, hak, ha, h, ih]

theorem GoMap.get_set_self (m : GoMap) (k v : GoString) : (GoMap.set m k v).get k = some v := by
  rw [GoMap.get_set]; simp

theorem GoMap.get_set_of_ne (m : GoMap) (k v k' : GoString) (h : k' ≠ k) :
    (GoMap.set m k v).get k' = m.get k' := by
  rw [GoMap.get_set]; simp [h]

/-! ## Cutting a line at its first space -/

theorem Index_of_not_mem (s : GoString) (sep : Char) (h : sep ∉ s) : Index s sep = none := by
  induction s with
  | nil => rfl
  | cons c cs ih =>
    have hc : ¬ c = sep := fun e => h (by simp [e])
    have hcs : sep ∉ cs := fun e => h (by simp [e])
    simp [Index, hc, ih hcs]

theorem Index_append (k v : GoString) (sep : Char) (h : sep ∉ k) :
    Index (k ++ sep :: v) sep = some k.length := by
  induction k with
  | nil => simp [Index]
  | cons c cs ih =>
    have hc : ¬ c = sep := fun e => h (by simp [e])
    have hcs : sep ∉ cs := fun e => h (by simp [e])
    simp [Index, hc, ih hcs]

theorem Cut_of_not_mem (s : GoString) (sep : Char) (h : sep ∉ s) :
    Cut s sep = (s, [], false) := by
  simp [Cut, Index_of_not_mem s sep h]

theorem Cut_append (k v : GoString) (sep : Char) (h : sep ∉ k) :
    Cut (k ++ sep :: v) sep = (k, v, true) := by
  simp [Cut, Index_append k v sep h]

/-! ## Trimming -/

theorem rdropWhile_append_spaces (s ws : GoString) (h : ∀ c ∈ ws, IsSpace c = true) :
    (s ++ ws).rdropWhile IsSpace = s.rdropWhile IsSpace := by
  unfold List.rdropWhile
  rw [List.reverse_append, List.dropWhile_append_of_pos]
  intro a ha
  exact h a (List.mem_reverse.mp ha)

theorem rdropWhile_append_kept (s t : GoString) (ht : t ≠ [])
    (h : t.rdropWhile IsSpace = t) : (s ++ t).rdropWhile IsSpace = s ++ t := by
  rw [List.rdropWhile_eq_self_iff] at h ⊢
  intro hl
  rw [List.getLast_append_of_ne_nil ht]
  exact h ht

theorem TrimSpace_pad (ws1 ws2 : GoString) (a : Char) (t : GoString)
    (h1 : ∀ c ∈ ws1, IsSpace c = true) (h2 : ∀ c ∈ ws2, IsSpace c = true)
    (ha : IsSpace a = false) (ht : (a :: t).rdropWhile IsSpace = a :: t) :
    TrimSpace (ws1 ++ (a :: t) ++ ws2) = a :: t := by
  unfold TrimSpace
  rw [List.append_assoc, List.dropWhile_append_of_pos h1]
  have hd : List.dropWhile IsSpace (a :: t ++ ws2) = a :: t ++ ws2 := by
    rw [List.cons_append, List.dropWhile_cons_of_neg (by simp [ha])]
  rw [hd, rdropWhile_append_spaces _ _ h2, ht]

theorem TrimSpace_of_spaces (l : GoString) (h : ∀ c ∈ l, IsSpace c = true) : TrimSpace l = [] := by
  unfold TrimSpace
  have : List.dropWhile IsSpace l = [] := List.dropWhile_eq_nil_iff.mpr h
  rw [this]; rfl

theorem TrimSpace_sublist (l : GoString) : List.Sublist (TrimSpace l) l :=
  ((List.rdropWhile_prefix IsSpace _).sublist).trans (List.dropWhile_sublist IsSpace)

theorem TrimSpace_not_mem (l : GoString) (c : Char) (h : c ∉ l) : c ∉ TrimSpace l :=
  fun hc => h ((TrimSpace_sublist l).subset hc)

theorem HasPrefix_TrimSpace_of_raw (l : GoString) (h : HasPrefix l ['#'] = true) :
    HasPrefix (TrimSpace l) ['#'] = true := by
  cases l with
  | nil => simp [HasPrefix] at h
  | cons a t =>
    have ha : a = '#' := by
      have h' : '#' = a := by simpa [HasPrefix] using h
      exact h'.symm
    subst ha
    have hd : TrimSpace ('#' :: t) = ('#' :: t).rdropWhile IsSpace := by
      unfold TrimSpace
      rw [List.dropWhile_cons_of_neg (by decide)]
    rw [hd]
    cases hr : List.rdropWhile IsSpace ('#' :: t) with
    | nil =>
      have := List.rdropWhile_eq_nil_iff.mp hr '#' (by simp)
      exact absurd this (by decide)
    | cons b u =>
      have hp := List.rdropWhile_prefix IsSpace ('#' :: t)
      rw [hr] at hp
      obtain ⟨w, hw⟩ := hp
      have hb : b = '#' := by
        have := congrArg List.head? hw
        simpa using this
      simp [HasPrefix, hb]

/-! ## One line of the loop -/

theorem Index_some (s : GoString) (sep : Char) (i : Nat) (h : Index s sep = some i) :
    s = s.take i ++ sep :: s.drop (i + 1) ∧ sep ∉ s.take i := by
  induction s generalizing i with
  | nil => simp [Index] at h
  | cons c cs ih =>
    by_cases hc : c = sep
    · simp [Index, hc] at h
      subst h
      simp [hc]
    · simp only [Index, hc, if_false, Option.map_eq_some'] at h
      obtain ⟨j, hj, rfl⟩ := h
      obtain ⟨h1, h2⟩ := ih j hj
      refine ⟨?_, ?_⟩
      · simp only [List.take_succ_cons, List.drop_succ_cons, List.cons_append]
        rw [← h1]
      · simp only [List.take_succ_cons, List.mem_cons, not_or]
        exact ⟨fun e => hc e.symm, h2⟩

theorem HasPrefix_append_sep (k v : GoString) (h : HasPrefix k ['#'] = false) :
    HasPrefix (k ++ ' ' :: v) ['#'] = false := by
  cases k with
  | nil => simp [HasPrefix, List.isPrefixOf]
  | cons a t => simpa [HasPrefix, List.isPrefixOf] using h

theorem append_sep_inj (k v k' v' : GoString) (sep : Char) (hk : sep ∉ k) (hk' : sep ∉ k')
    (h : k ++ sep :: v = k' ++ sep :: v') : k = k' ∧ v = v' := by
  have h1 := Cut_append k v sep hk
  rw [h, Cut_append k' v' sep hk'] at h1
  simp only [Prod.mk.injEq, and_true] at h1
  exact ⟨h1.1.symm, h1.2.symm⟩

theorem configLoadedMetric_no_space : ' ' ∉ configLoadedMetric := by decide

theorem configStaleMetric_no_space : ' ' ∉ configStaleMetric := by decide

theorem scanLine_comment (m : GoMap) (l : GoString) (h : HasPrefix (TrimSpace l) ['#'] = true) :
    scanLine m l = m := by
  simp [scanLine, h]

theorem scanLine_no_space (m : GoMap) (l : GoString) (h : ' ' ∉ TrimSpace l) :
    scanLine m l = m := by
  unfold scanLine
  simp only [Cut_of_not_mem _ _ h]
  split <;> rfl

theorem scanLine_sample (m : GoMap) (l k v : GoString) (ht : TrimSpace l = k ++ ' ' :: v)
    (hk : ' ' ∉ k) (hc : HasPrefix k ['#'] = false) : scanLine m l = m.set k v := by
  unfold scanLine
  simp only [ht, HasPrefix_append_sep k v hc, Cut_append k v ' ' hk]
  rfl

theorem scanLine_cases (m : GoMap) (l : GoString) :
    scanLine m l = m ∨
      ∃ k v, TrimSpace l = k ++ ' ' :: v ∧ ' ' ∉ k ∧ scanLine m l = m.set k v := by
  by_cases hc : HasPrefix (TrimSpace l) ['#'] = true
  · exact Or.inl (scanLine_comment m l hc)
  · cases hi : Index (TrimSpace l) ' ' with
    | none =>
      left
      unfold scanLine
      simp [hc, Cut, hi]
    | some i =>
      right
      obtain ⟨h1, h2⟩ := Index_some _ _ i hi
      refine ⟨(TrimSpace l).take i, (TrimSpace l).drop (i + 1), h1, h2, ?_⟩
      unfold scanLine
      simp [hc, Cut, hi]

theorem keepsKey_of_not_sample (k l : GoString)
    (h : ¬ ∃ v, TrimSpace l = k ++ ' ' :: v) : keepsKey k l := by
  intro m
  rcases scanLine_cases m l with h0 | ⟨k', v', ht, _, hs⟩
  · rw [h0]
  · rw [hs]
    apply GoMap.get_set_of_ne
    intro e
    subst e
    exact h ⟨v', ht⟩

theorem keepsKey_of_otherLine (l : GoString) (h : otherLine l) :
    keepsKey configLoadedMetric l ∧ keepsKey configStaleMetric l := by
  rcases h with h | h | ⟨k, v, ht, _, h1, h2⟩
  · exact ⟨fun m => by rw [scanLine_comment m l h], fun m => by rw [scanLine_comment m l h]⟩
  · exact ⟨fun m => by rw [scanLine_no_space m l h], fun m => by rw [scanLine_no_space m l h]⟩
  · refine ⟨keepsKey_of_not_sample _ _ ?_, keepsKey_of_not_sample _ _ ?_⟩
    · rintro ⟨v', hv'⟩
      rw [ht] at hv'
      exact h1 (append_sep_inj _ _ _ _ ' ' ‹_› configLoadedMetric_no_space hv').1
    · rintro ⟨v', hv'⟩
      rw [ht] at hv'
      exact h2 (append_sep_inj _ _ _ _ ' ' ‹_› configStaleMetric_no_space hv').1

/-! ## The loop over the lines -/

theorem foldl_scanLine_keeps (ls : List GoString) (k : GoString)
    (h : ∀ l ∈ ls, keepsKey k l) (m : GoMap) :
    (ls.foldl scanLine m).get k = m.get k := by
  induction ls generalizing m with
  | nil => rfl
  | cons l rest ih =>
    rw [List.foldl_cons, ih (fun l' hl' => h l' (List.mem_cons_of_mem _ hl')),
      h l (List.mem_cons_self _ _) m]

theorem foldl_scanLine_last (pre post : List GoString) (l k v : GoString) (m0 : GoMap)
    (hl : ∀ m, scanLine m l = m.set k v) (hpost : ∀ l' ∈ post, keepsKey k l') :
    ((pre ++ l :: post).foldl scanLine m0).get k = some v := by
  rw [List.foldl_append, List.foldl_cons, foldl_scanLine_keeps post k hpost, hl,
    GoMap.get_set_self]

theorem foldl_scanLine_skip (pre post : List GoString) (x : GoString) (m0 : GoMap)
    (hx : ∀ m, scanLine m x = m) :
    (pre ++ x :: post).foldl scanLine m0 = (pre ++ post).foldl scanLine m0 := by
  rw [List.foldl_append, List.foldl_cons, hx, List.foldl_append]

theorem foldl_scanLine_at (ls : List GoString) (i : Nat) (l k v : GoString) (m0 : GoMap)
    (hi : ls[i]? = some l) (hl : ∀ m, scanLine m l = m.set k v)
    (hrest : ∀ n l', n ≠ i → ls[n]? = some l' → keepsKey k l') :
    (ls.foldl scanLine m0).get k = some v := by
  have hlt : i < ls.length := (List.getElem?_eq_some_iff.mp hi).1
  have hsplit : ls = ls.take i ++ l :: ls.drop (i + 1) := by
    have hget : ls[i] = l := (List.getElem?_eq_some_iff.mp hi).2
    rw [← hget, List.getElem_cons_drop _ _ hlt, List.take_append_drop]
  rw [hsplit]
  apply foldl_scanLine_last _ _ _ _ _ _ hl
  intro l' hl'
  obtain ⟨n, hn, hnl⟩ := List.getElem_of_mem hl'
  apply hrest (i + 1 + n) l' (by omega)
  rw [List.getElem_drop] at hnl
  rw [List.getElem?_eq_some_iff]
  exact ⟨by simp at hn; omega, hnl⟩

/-! ## The accepted spellings -/

theorem ParseBool_of_spelling (v : GoString) (h : v ∈ trueSpellings ∨ v ∈ falseSpellings) :
    ParseBool v = .ok (decide (v ∈ trueSpellings)) := by
  simp only [trueSpellings, falseSpellings, List.mem_cons, List.mem_singleton,
    List.not_mem_nil, or_false] at h
  rcases h with (h | h | h | h | h | h) | (h | h | h | h | h | h) <;> subst h <;> rfl

theorem spelling_trimmed (v : GoString) (h : v ∈ trueSpellings ∨ v ∈ falseSpellings) :
    v ≠ [] ∧ v.rdropWhile IsSpace = v := by
  simp only [trueSpellings, falseSpellings, List.mem_cons, List.mem_singleton,
    List.not_mem_nil, or_false] at h
  rcases h with (h | h | h | h | h | h) | (h | h | h | h | h | h) <;> subst h <;>
    exact ⟨by decide, by rfl⟩

theorem spellings_disjoint (v : GoString) (h : v ∈ trueSpellings) : v ∉ falseSpellings := by
  simp only [trueSpellings, List.mem_cons, List.mem_singleton, List.not_mem_nil, or_false] at h
  rcases h with h | h | h | h | h | h <;> subst h <;> decide

theorem ParseBool_of_not_spelling (v : GoString) (ht : v ∉ trueSpellings)
    (hf : v ∉ falseSpellings) :
    ParseBool v = .error { Func := "ParseBool".toList, Num := v } := by
  have h1 : ¬ (v = "1".toList ∨ v = "t".toList ∨ v = "T".toList ∨ v = "true".toList
      ∨ v = "TRUE".toList ∨ v = "True".toList) := by
    intro h
    apply ht
    simp only [trueSpellings, List.mem_cons, List.mem_singleton, List.not_mem_nil, or_false]
    tauto
  have h2 : ¬ (v = "0".toList ∨ v = "f".toList ∨ v = "F".toList ∨ v = "false".toList
      ∨ v = "FALSE".toList ∨ v = "False".toList) := by
    intro h
    apply hf
    simp only [falseSpellings, List.mem_cons, List.mem_singleton, List.not_mem_nil, or_false]
    tauto
  unfold ParseBool
  rw [if_neg h1, if_neg h2]

/-! ## Bodies that carry both required samples -/

theorem sample_line_trim (ws1 ws2 : GoString) (a : Char) (t v : GoString)
    (h1 : ∀ c ∈ ws1, IsSpace c = true) (h2 : ∀ c ∈ ws2, IsSpace c = true)
    (ha : IsSpace a = false) (hv : v ≠ [] ∧ v.rdropWhile IsSpace = v) :
    TrimSpace (ws1 ++ (a :: t ++ ' ' :: v) ++ ws2) = a :: t ++ ' ' :: v := by
  have hk : (a :: (t ++ ' ' :: v)).rdropWhile IsSpace = a :: (t ++ ' ' :: v) := by
    have := rdropWhile_append_kept (a :: t ++ [' ']) v hv.1 hv.2
    simpa using this
  have := TrimSpace_pad ws1 ws2 a (t ++ ' ' :: v) h1 h2 ha hk
  simpa using this

theorem scanLine_loaded (m : GoMap) (ws1 ws2 v : GoString)
    (h1 : ∀ c ∈ ws1, IsSpace c = true) (h2 : ∀ c ∈ ws2, IsSpace c = true)
    (hv : v ∈ trueSpellings ∨ v ∈ falseSpellings) :
    scanLine m (ws1 ++ (configLoadedMetric ++ ' ' :: v) ++ ws2)
      = m.set configLoadedMetric v := by
  apply scanLine_sample m _ _ _ _ configLoadedMetric_no_space (by decide)
  exact sample_line_trim ws1 ws2 'm' "etallb_k8s_client_config_loaded_bool".toList v h1 h2
    (by decide) (spelling_trimmed v hv)

theorem scanLine_stale (m : GoMap) (ws1 ws2 v : GoString)
    (h1 : ∀ c ∈ ws1, IsSpace c = true) (h2 : ∀ c ∈ ws2, IsSpace c = true)
    (hv : v ∈ trueSpellings ∨ v ∈ falseSpellings) :
    scanLine m (ws1 ++ (configStaleMetric ++ ' ' :: v) ++ ws2)
      = m.set configStaleMetric v := by
  apply scanLine_sample m _ _ _ _ configStaleMetric_no_space (by decide)
  exact sample_line_trim ws1 ws2 'm' "etallb_k8s_client_config_stale_bool".toList v h1 h2
    (by decide) (spelling_trimmed v hv)

theorem parseMetrics_of_index (raw v1 v2 : GoString) (b1 b2 : Bool)
    (hl : (scanLines raw).get configLoadedMetric = some v1)
    (hs : (scanLines raw).get configStaleMetric = some v2)
    (hb1 : ParseBool v1 = .ok b1) (hb2 : ParseBool v2 = .ok b2) :
    parseMetrics raw = .ok { configStale := b2, configLoaded := b1 } := by
  simp [parseMetrics, readBoolMetric, hl, hs, hb1, hb2]

theorem parseMetrics_of_padded_lines (raw : GoString) (i j : Nat)
    (a1 z1 a2 z2 v1 v2 : GoString)
    (hi : (Split raw '\n')[i]? = some (a1 ++ (configLoadedMetric ++ ' ' :: v1) ++ z1))
    (hj : (Split raw '\n')[j]? = some (a2 ++ (configStaleMetric ++ ' ' :: v2) ++ z2))
    (ha1 : ∀ c ∈ a1, IsSpace c = true) (hz1 : ∀ c ∈ z1, IsSpace c = true)
    (ha2 : ∀ c ∈ a2, IsSpace c = true) (hz2 : ∀ c ∈ z2, IsSpace c = true)
    (h1 : v1 ∈ trueSpellings ∨ v1 ∈ falseSpellings)
    (h2 : v2 ∈ trueSpellings ∨ v2 ∈ falseSpellings)
    (hothers : ∀ n l, n ≠ i → n ≠ j → (Split raw '\n')[n]? = some l → otherLine l) :
    parseMetrics raw = .ok { configStale := decide (v2 ∈ trueSpellings),
                             configLoaded := decide (v1 ∈ trueSpellings) } := by
  have hne : configLoadedMetric ≠ configStaleMetric := by decide
  apply parseMetrics_of_index raw v1 v2 _ _ _ _ (ParseBool_of_spelling v1 h1)
    (ParseBool_of_spelling v2 h2)
  · apply foldl_scanLine_at _ i _ _ _ _ hi (fun m => scanLine_loaded m a1 z1 v1 ha1 hz1 h1)
    intro n l hn hl
    by_cases hnj : n = j
    · subst hnj
      rw [hj] at hl
      cases hl
      intro m
      rw [scanLine_stale m a2 z2 v2 ha2 hz2 h2]
      exact GoMap.get_set_of_ne _ _ _ _ hne
    · exact (keepsKey_of_otherLine l (hothers n l hn hnj hl)).1
  · apply foldl_scanLine_at _ j _ _ _ _ hj (fun m => scanLine_stale m a2 z2 v2 ha2 hz2 h2)
    intro n l hn hl
    by_cases hni : n = i
    · subst hni
      rw [hi] at hl
      cases hl
      intro m
      rw [scanLine_loaded m a1 z1 v1 ha1 hz1 h1]
      exact GoMap.get_set_of_ne _ _ _ _ hne.symm
    · exact (keepsKey_of_otherLine l (hothers n l hni hn hl)).2

/-! ## Splitting a body into lines -/

theorem splitOnP_no_sep (p : Char → Bool) (s : GoString) :
    ∀ l ∈ s.splitOnP p, ∀ c ∈ l, p c = false := by
  induction s with
  | nil => simp
  | cons a t ih =>
    rw [List.splitOnP_cons]
    by_cases ha : p a = true
    · rw [if_pos ha]
      intro l hl
      rcases List.mem_cons.mp hl with h | h
      · subst h
        simp
      · exact ih l h
    · rw [if_neg ha]
      cases hs : List.splitOnP p t with
      | nil => exact absurd hs (List.splitOnP_ne_nil p t)
      | cons hd tl =>
        rw [hs] at ih
        intro l hl
        simp only [List.modifyHead_cons, List.mem_cons] at hl
        rcases hl with h | h
        · subst h
          intro c hc
          rcases List.mem_cons.mp hc with h' | h'
          · subst h'
            simpa using ha
          · exact ih hd (List.mem_cons_self _ _) c h'
        · exact ih l (List.mem_cons_of_mem _ h)

theorem Split_no_sep (s : GoString) (sep : Char) : ∀ l ∈ Split s sep, sep ∉ l := by
  intro l hl hc
  have := splitOnP_no_sep (· == sep) s l hl sep hc
  simp at this

theorem Split_joinLines (ls : List GoString) (hne : ls ≠ []) (h : ∀ l ∈ ls, '\n' ∉ l) :
    Split (joinLines ls) '\n' = ls :=
  List.splitOn_intercalate ls '\n' h hne

theorem scanLine_tolerated (m : GoMap) (x : GoString) (h : toleratedLine x) :
    scanLine m x = m := by
  rcases h with h | h | h
  · apply scanLine_no_space
    rw [TrimSpace_of_spaces x h]
    simp
  · exact scanLine_comment m x h
  · exact scanLine_no_space m x h

theorem joinLines_Split (raw : GoString) : joinLines (Split raw '\n') = raw :=
  List.intercalate_splitOn raw '\n'

/-- The untrimmed readings of a comment, a blank line and a line without a
space are cases of `otherLine` and of `toleratedLine`. -/
theorem otherLine_of_raw (l : GoString)
    (h : HasPrefix l ['#'] = true ∨ (∀ c ∈ l, IsSpace c = true) ∨ ' ' ∉ l) :
    otherLine l ∧ toleratedLine l := by
  rcases h with h | h | h
  · exact ⟨Or.inl (HasPrefix_TrimSpace_of_raw l h), Or.inr (Or.inl (HasPrefix_TrimSpace_of_raw l h))⟩
  · refine ⟨Or.inr (Or.inl ?_), Or.inl h⟩
    rw [TrimSpace_of_spaces l h]
    simp
  · exact ⟨Or.inr (Or.inl (TrimSpace_not_mem l ' ' h)), Or.inr (Or.inr (TrimSpace_not_mem l ' ' h))⟩

theorem rdropWhile_append (s t : GoString) :
    (s ++ t).rdropWhile IsSpace
      = if t.rdropWhile IsSpace = [] then s.rdropWhile IsSpace else s ++ t.rdropWhile IsSpace := by
  unfold List.rdropWhile
  rw [List.reverse_append, List.dropWhile_append]
  by_cases h : List.dropWhile IsSpace t.reverse = []
  · simp [h]
  · simp [h]

/-- An untrimmed line `name value` whose name is not empty, has no white space
and is not a required metric is a case of `otherLine`. -/
theorem otherLine_of_raw_sample (k v : GoString) (hne : k ≠ [])
    (hk : ∀ c ∈ k, IsSpace c = false) (h1 : k ≠ configLoadedMetric)
    (h2 : k ≠ configStaleMetric) : otherLine (k ++ ' ' :: v) := by
  have hsp : ' ' ∉ k := fun hc => by
    have := hk ' ' hc
    exact absurd this (by decide)
  obtain ⟨a, t, rfl⟩ := List.exists_cons_of_ne_nil hne
  have ha : IsSpace a = false := hk a (List.mem_cons_self _ _)
  have hkk : (a :: t).rdropWhile IsSpace = a :: t := by
    rw [List.rdropWhile_eq_self_iff]
    intro hl
    have := hk _ (List.getLast_mem hl)
    simp [this]
  have htrim : TrimSpace (a :: t ++ ' ' :: v)
      = (a :: t ++ ' ' :: v).rdropWhile IsSpace := by
    unfold TrimSpace
    rw [List.cons_append, List.dropWhile_cons_of_neg (by simp [ha])]
  rw [otherLine, htrim, rdropWhile_append]
  by_cases hv : (' ' :: v).rdropWhile IsSpace = []
  · rw [if_pos hv, hkk]
    exact Or.inr (Or.inl hsp)
  · rw [if_neg hv]
    obtain ⟨w, hw⟩ := List.rdropWhile_prefix IsSpace (' ' :: v)
    cases hr : (' ' :: v).rdropWhile IsSpace with
    | nil => exact absurd hr hv
    | cons b u =>
      rw [hr] at hw
      have hb : b = ' ' := by
        have := congrArg List.head? hw
        simpa using this
      subst hb
      exact Or.inr (Or.inr ⟨a :: t, u, rfl, hsp, h1, h2⟩)

/-- A value that keeps a leading space, as after two spaces between name and
value, is not a boolean spelling. -/
theorem ParseBool_leading_space (w : GoString) :
    ParseBool (' ' :: w) = .error { Func := "ParseBool".toList, Num := ' ' :: w } := by
  apply ParseBool_of_not_spelling
  · intro h
    simp only [trueSpellings, List.mem_cons, List.mem_singleton, List.not_mem_nil, or_false] at h
    rcases h with h | h | h | h | h | h <;> exact absurd (List.head_eq_of_cons_eq h) (by decide)
  · intro h
    simp only [falseSpellings, List.mem_cons, List.mem_singleton, List.not_mem_nil, or_false] at h
    rcases h with h | h | h | h | h | h <;> exact absurd (List.head_eq_of_cons_eq h) (by decide)

/-! ## Claims on the parser -/

/-- C1 (parser coverage): when the lines of the body hold the sample
`metallb_k8s_client_config_loaded_bool v1` on line `i` and the sample
`metallb_k8s_client_config_stale_bool v2` on line `j`, with `v1` and `v2` among
the accepted spellings, and every other line is a comment, has no space, or is a
sample of another name, the parsing part of `getMetrics` succeeds with
`configLoaded` the boolean `v1` denotes and `configStale` the boolean `v2`
denotes. -/
theorem C1_parser_coverage (raw : GoString) (i j : Nat) (v1 v2 : GoString)
    (hi : (Split raw '\n')[i]? = some (configLoadedMetric ++ ' ' :: v1))
    (hj : (Split raw '\n')[j]? = some (configStaleMetric ++ ' ' :: v2))
    (h1 : v1 ∈ trueSpellings ∨ v1 ∈ falseSpellings)
    (h2 : v2 ∈ trueSpellings ∨ v2 ∈ falseSpellings)
    (hothers : ∀ n l, n ≠ i → n ≠ j → (Split raw '\n')[n]? = some l → otherLine l) :
    parseMetrics raw = .ok { configStale := decide (v2 ∈ trueSpellings),
                             configLoaded := decide (v1 ∈ trueSpellings) } := by
  apply parseMetrics_of_padded_lines raw i j [] [] [] [] v1 v2 (by simpa using hi)
    (by simpa using hj) (by simp) (by simp) (by simp) (by simp) h1 h2 hothers

/-- Witness of C1 on the body of scenario S1 with a comment and a foreign sample:
the loaded gauge reads `1`, the stale gauge `0`. -/
theorem C1_parser_coverage_witness :
    parseMetrics s1Body = .ok { configStale := decide ("0".toList ∈ trueSpellings),
                                configLoaded := decide ("1".toList ∈ trueSpellings) } :=
  C1_parser_coverage s1Body 1 3 "1".toList "0".toList (by rfl) (by rfl)
    (Or.inl (by decide)) (Or.inr (by decide))
    (by
      have hs : Split s1Body '\n' = ["# HELP x".toList,
          "metallb_k8s_client_config_loaded_bool 1".toList, "foo 3".toList,
          "metallb_k8s_client_config_stale_bool 0".toList, []] := by rfl
      intro n l hn1 hn3 hl
      rw [hs] at hl
      match n, hn1, hn3, hl with
      | 0, _, _, hl =>
        cases hl
        exact Or.inl (by rfl)
      | 2, _, _, hl =>
        cases hl
        exact Or.inr (Or.inr ⟨"foo".toList, "3".toList, by rfl, by decide, by decide, by decide⟩)
      | 4, _, _, hl =>
        cases hl
        exact Or.inr (Or.inl (by decide))
      | n + 5, _, _, hl => simp at hl)

/-- C3, as the code refutes it: on the body of scenario S3 the value recorded for
the loaded gauge is the rest of the trimmed line after the first space, two
spaces and `true`, which `strconv.ParseBool` rejects; parsing does not give
`configLoaded = true`, `configStale = false`. -/
theorem C3_s3_body_fails :
    (scanLines s3Body).get configLoadedMetric = some "  true".toList ∧
    parseMetrics s3Body
      = .error (.parseBool { Func := "ParseBool".toList, Num := "  true".toList }) ∧
    parseMetrics s3Body ≠ .ok { configStale := false, configLoaded := true } := by
  refine ⟨by rfl, by rfl, ?_⟩
  have h : parseMetrics s3Body
      = .error (.parseBool { Func := "ParseBool".toList, Num := "  true".toList }) := by rfl
  rw [h]
  intro e
  cases e

/-- C3, amended: when the lines of the two required samples carry leading and
trailing white space and exactly one space between the metric name and an
accepted spelling, and every other line is a comment, has no space, or is a
sample of another name, parsing succeeds with the booleans the spellings
denote. -/
theorem C3_padded_line_single_space (raw : GoString) (i j : Nat)
    (a1 z1 a2 z2 v1 v2 : GoString)
    (hi : (Split raw '\n')[i]? = some (a1 ++ (configLoadedMetric ++ ' ' :: v1) ++ z1))
    (hj : (Split raw '\n')[j]? = some (a2 ++ (configStaleMetric ++ ' ' :: v2) ++ z2))
    (ha1 : ∀ c ∈ a1, IsSpace c = true) (hz1 : ∀ c ∈ z1, IsSpace c = true)
    (ha2 : ∀ c ∈ a2, IsSpace c = true) (hz2 : ∀ c ∈ z2, IsSpace c = true)
    (h1 : v1 ∈ trueSpellings ∨ v1 ∈ falseSpellings)
    (h2 : v2 ∈ trueSpellings ∨ v2 ∈ falseSpellings)
    (hothers : ∀ n l, n ≠ i → n ≠ j → (Split raw '\n')[n]? = some l → otherLine l) :
    parseMetrics raw = .ok { configStale := decide (v2 ∈ trueSpellings),
                             configLoaded := decide (v1 ∈ trueSpellings) } :=
  parseMetrics_of_padded_lines raw i j a1 z1 a2 z2 v1 v2 hi hj ha1 hz1 ha2 hz2 h1 h2 hothers

/-- Witness of the amended C3: the body of scenario S3 with a single space after
the name of the loaded gauge parses to loaded `true`, stale `false`. -/
theorem C3_padded_line_single_space_witness :
    parseMetrics s3BodyOneSpace
      = .ok { configStale := decide ("false".toList ∈ trueSpellings),
              configLoaded := decide ("true".toList ∈ trueSpellings) } :=
  C3_padded_line_single_space s3BodyOneSpace 2 3 "  ".toList "  ".toList [] []
    "true".toList "false".toList (by rfl) (by rfl) (by decide) (by decide) (by simp) (by simp)
    (Or.inl (by decide)) (Or.inr (by decide))
    (by
      have hs : Split s3BodyOneSpace '\n' = ["# HELP ...".toList, [],
          "  metallb_k8s_client_config_loaded_bool true  ".toList,
          "metallb_k8s_client_config_stale_bool false".toList, []] := by rfl
      intro n l hn2 hn3 hl
      rw [hs] at hl
      match n, hn2, hn3, hl with
      | 0, _, _, hl =>
        cases hl
        exact Or.inl (by rfl)
      | 1, _, _, hl =>
        cases hl
        exact Or.inr (Or.inl (by decide))
      | 4, _, _, hl =>
        cases hl
        exact Or.inr (Or.inl (by decide))
      | n + 5, _, _, hl => simp at hl)

/-- C4, as the code refutes it: the stale gauge is missing from the body and the
loaded gauge carries `x`; the loaded gauge is consulted first and its parse error
is returned, not the `metrics not found` error for the stale gauge. -/
theorem C4_parse_error_precedes_missing :
    (scanLines loadedJunkBody).get configStaleMetric = none ∧
    parseMetrics loadedJunkBody
      = .error (.parseBool { Func := "ParseBool".toList, Num := "x".toList }) ∧
    parseMetrics loadedJunkBody ≠ .error (.metricNotFound configStaleMetric) := by
  refine ⟨by rfl, by rfl, ?_⟩
  have h : parseMetrics loadedJunkBody
      = .error (.parseBool { Func := "ParseBool".toList, Num := "x".toList }) := by rfl
  rw [h]
  intro e
  cases e

/-- C4, amended: when the line index of a body lacks one or both required metric
names, parsing fails.  The error is `metrics not found` for the loaded gauge when
that one is missing, whatever the stale gauge holds; it is `metrics not found` for
the stale gauge when the loaded gauge is present with an accepted spelling; it is
the parse error of the loaded gauge when that one is present with another
value. -/
theorem C4_parser_strictness (raw : GoString)
    (h : (scanLines raw).get configLoadedMetric = none
      ∨ (scanLines raw).get configStaleMetric = none) :
    (∃ e, parseMetrics raw = .error e) ∧
    ((scanLines raw).get configLoadedMetric = none →
      parseMetrics raw = .error (.metricNotFound configLoadedMetric)) ∧
    (∀ v b, (scanLines raw).get configLoadedMetric = some v → ParseBool v = .ok b →
      parseMetrics raw = .error (.metricNotFound configStaleMetric)) ∧
    (∀ v err, (scanLines raw).get configLoadedMetric = some v → ParseBool v = .error err →
      parseMetrics raw = .error (.parseBool err)) := by
  have hnone : (scanLines raw).get configLoadedMetric = none →
      parseMetrics raw = .error (.metricNotFound configLoadedMetric) := by
    intro h0
    simp [parseMetrics, readBoolMetric, h0]
  have hok : ∀ v b, (scanLines raw).get configLoadedMetric = some v → ParseBool v = .ok b →
      parseMetrics raw = .error (.metricNotFound configStaleMetric) := by
    intro v b hv hb
    have hs : (scanLines raw).get configStaleMetric = none := by
      rcases h with h | h
      · rw [hv] at h
        cases h
      · exact h
    simp [parseMetrics, readBoolMetric, hv, hb, hs]
  have herr : ∀ v err, (scanLines raw).get configLoadedMetric = some v →
      ParseBool v = .error err → parseMetrics raw = .error (.parseBool err) := by
    intro v err hv hb
    simp [parseMetrics, readBoolMetric, hv, hb]
  refine ⟨?_, hnone, hok, herr⟩
  cases hv : (scanLines raw).get configLoadedMetric with
  | none => exact ⟨_, hnone hv⟩
  | some v =>
    cases hb : ParseBool v with
    | error err => exact ⟨_, herr v err hv hb⟩
    | ok b => exact ⟨_, hok v b hv hb⟩

/-- Witness of the amended C4: the empty body fails with `metrics not found` for
the loaded gauge. -/
theorem C4_parser_strictness_witness :
    parseMetrics [] = .error (.metricNotFound configLoadedMetric) :=
  (C4_parser_strictness [] (Or.inl (by rfl))).2.1 (by rfl)

/-- C5, as the code refutes it: the error returned for a token that is not a
boolean spelling does not identify the metric.  On a body where both gauges carry
`tRuE` the closure returns the same error for either metric, so no reading of the
error gives the metric name back. -/
theorem C5_error_does_not_name_metric :
    readBoolMetric (scanLines mixedCaseBody) configLoadedMetric
      = readBoolMetric (scanLines mixedCaseBody) configStaleMetric ∧
    ¬ ∃ nameOf : MetricsError → GoString,
      ∀ (lines : GoMap) (metric val : GoString), lines.get metric = some val →
        val ∉ trueSpellings → val ∉ falseSpellings →
        ∃ e, readBoolMetric lines metric = .error e ∧ nameOf e = metric := by
  have hl : readBoolMetric (scanLines mixedCaseBody) configLoadedMetric
      = .error (.parseBool { Func := "ParseBool".toList, Num := "tRuE".toList }) := by rfl
  have hs : readBoolMetric (scanLines mixedCaseBody) configStaleMetric
      = .error (.parseBool { Func := "ParseBool".toList, Num := "tRuE".toList }) := by rfl
  refine ⟨hl.trans hs.symm, ?_⟩
  rintro ⟨nameOf, hname⟩
  obtain ⟨e1, he1, hn1⟩ := hname (scanLines mixedCaseBody) configLoadedMetric "tRuE".toList
    (by rfl) (by decide) (by decide)
  obtain ⟨e2, he2, hn2⟩ := hname (scanLines mixedCaseBody) configStaleMetric "tRuE".toList
    (by rfl) (by decide) (by decide)
  rw [hl] at he1
  rw [hs] at he2
  cases he1
  cases he2
  have hne : configLoadedMetric ≠ configStaleMetric := by decide
  exact hne (hn1.symm.trans hn2)

/-- C5, amended: for the value token `val` recorded for a metric, `readBoolMetric`
returns true exactly when `val` is one of `1 t T TRUE true True`, false exactly
when it is one of `0 f F FALSE false False`, and for every other token fails with
the `unable to parse bool` error, which wraps the error of `strconv.ParseBool` and
carries the rejected token, not the metric name. -/
theorem C5_boolean_spellings (lines : GoMap) (metric val : GoString)
    (h : lines.get metric = some val) :
    (readBoolMetric lines metric = .ok true ↔ val ∈ trueSpellings) ∧
    (readBoolMetric lines metric = .ok false ↔ val ∈ falseSpellings) ∧
    (val ∉ trueSpellings → val ∉ falseSpellings →
      readBoolMetric lines metric
        = .error (.parseBool { Func := "ParseBool".toList, Num := val })) := by
  have hr : readBoolMetric lines metric
      = match ParseBool val with
        | .error err => .error (.parseBool err)
        | .ok res => .ok res := by
    simp [readBoolMetric, h]
  by_cases ht : val ∈ trueSpellings
  · have hf := spellings_disjoint val ht
    have hp := ParseBool_of_spelling val (Or.inl ht)
    rw [hr, hp]
    simp [ht, hf]
  · by_cases hf : val ∈ falseSpellings
    · have hp := ParseBool_of_spelling val (Or.inr hf)
      rw [hr, hp]
      simp [ht, hf]
    · have hp := ParseBool_of_not_spelling val ht hf
      rw [hr, hp]
      simp [ht, hf]

/-- Witness of the amended C5: the token `tRuE` recorded for the loaded gauge is
rejected, and the error carries that token. -/
theorem C5_boolean_spellings_witness :
    readBoolMetric (scanLines mixedCaseBody) configLoadedMetric
      = .error (.parseBool { Func := "ParseBool".toList, Num := "tRuE".toList }) :=
  (C5_boolean_spellings (scanLines mixedCaseBody) configLoadedMetric "tRuE".toList
    (by rfl)).2.2 (by decide) (by decide)

/-- C9 (parser tolerance): put at any line position of a body an extra line that
is blank or white space only, or that once trimmed starts with `#` or has no
space: the line index and the parse result, sample or error, are those of the
body without it; the extra line by itself leaves any line index as it is. -/
theorem C9_parser_tolerance (raw x : GoString) (n : Nat) (hx : '\n' ∉ x)
    (ht : toleratedLine x) :
    scanLines (joinLines ((Split raw '\n').take n ++ x :: (Split raw '\n').drop n))
      = scanLines raw ∧
    parseMetrics (joinLines ((Split raw '\n').take n ++ x :: (Split raw '\n').drop n))
      = parseMetrics raw ∧
    ∀ m : GoMap, scanLine m x = m := by
  have hidx : scanLines (joinLines ((Split raw '\n').take n ++ x :: (Split raw '\n').drop n))
      = scanLines raw := by
    unfold scanLines
    rw [Split_joinLines _ (by simp)]
    · rw [foldl_scanLine_skip _ _ x [] (fun m => scanLine_tolerated m x ht),
        List.take_append_drop]
    · intro l hl
      rcases List.mem_append.mp hl with h | h
      · exact Split_no_sep raw '\n' l (List.mem_of_mem_take h)
      · rcases List.mem_cons.mp h with h | h
        · subst h
          exact hx
        · exact Split_no_sep raw '\n' l (List.mem_of_mem_drop h)
  refine ⟨hidx, ?_, fun m => scanLine_tolerated m x ht⟩
  unfold parseMetrics
  rw [hidx]

/-- Witness of C9: a comment line that itself mentions the loaded gauge, put
before the second line of the S1 body, changes nothing. -/
theorem C9_parser_tolerance_witness :
    scanLines (joinLines ((Split s1Body '\n').take 1
        ++ "  # metallb_k8s_client_config_loaded_bool 0".toList :: (Split s1Body '\n').drop 1))
      = scanLines s1Body ∧
    parseMetrics (joinLines ((Split s1Body '\n').take 1
        ++ "  # metallb_k8s_client_config_loaded_bool 0".toList :: (Split s1Body '\n').drop 1))
      = parseMetrics s1Body ∧
    ∀ m : GoMap, scanLine m "  # metallb_k8s_client_config_loaded_bool 0".toList = m :=
  C9_parser_tolerance s1Body "  # metallb_k8s_client_config_loaded_bool 0".toList 1
    (by decide) (Or.inr (Or.inl (by rfl)))

/-- C10 (last write wins): when `l` is a sample line of the name `k` with value
`v` and no later line of the body is a sample line of `k`, the line index maps
`k` to `v`, whatever earlier lines hold for `k`; `readBoolMetric` on `k` is then
decided by `v` alone. -/
theorem C10_last_write_wins (raw : GoString) (pre post : List GoString) (l k v : GoString)
    (hsplit : Split raw '\n' = pre ++ l :: post)
    (hl : TrimSpace l = k ++ ' ' :: v) (hk : ' ' ∉ k) (hc : HasPrefix k ['#'] = false)
    (hlast : ∀ l' ∈ post, ¬ ∃ v', TrimSpace l' = k ++ ' ' :: v') :
    (scanLines raw).get k = some v ∧
    readBoolMetric (scanLines raw) k
      = match ParseBool v with
        | .error err => .error (.parseBool err)
        | .ok res => .ok res := by
  have hget : (scanLines raw).get k = some v := by
    unfold scanLines
    rw [hsplit]
    exact foldl_scanLine_last pre post l k v [] (fun m => scanLine_sample m l k v hl hk hc)
      (fun l' h' => keepsKey_of_not_sample k l' (hlast l' h'))
  refine ⟨hget, ?_⟩
  simp [readBoolMetric, hget]

/-- Witness of C10: the loaded gauge first carries `junk`, then `1` on the last
line of the body; the index holds `1` and the metric reads true. -/
theorem C10_last_write_wins_witness :
    (scanLines repeatedBody).get configLoadedMetric = some "1".toList ∧
    readBoolMetric (scanLines repeatedBody) configLoadedMetric
      = match ParseBool "1".toList with
        | .error err => .error (.parseBool err)
        | .ok res => .ok res :=
  C10_last_write_wins repeatedBody
    ["metallb_k8s_client_config_loaded_bool junk".toList,
      "metallb_k8s_client_config_stale_bool 0".toList]
    [[]] "metallb_k8s_client_config_loaded_bool 1".toList configLoadedMetric "1".toList
    (by rfl) (by rfl) (by decide) (by decide)
    (by
      intro l' h'
      simp only [List.mem_singleton] at h'
      subst h'
      rintro ⟨v', hv'⟩
      have : TrimSpace [] = [] := by rfl
      rw [this] at hv'
      cases hv')

/-- Last write wins on whole bodies: `junk` then `1` for the loaded gauge parses,
`1` then `junk` fails on `junk`. -/
theorem repeated_bodies :
    parseMetrics repeatedBody = .ok { configStale := false, configLoaded := true } ∧
    parseMetrics repeatedJunkLastBody
      = .error (.parseBool { Func := "ParseBool".toList, Num := "junk".toList }) :=
  ⟨by rfl, by rfl⟩

/-- Scenario S2: with the loaded gauge only, carrying `1`, parsing fails with
`metrics not found` for the stale gauge. -/
theorem s2_missing_stale :
    parseMetrics loadedOnlyBody = .error (.metricNotFound configStaleMetric) := by
  rfl

/-! ## The mutation of the ConfigMap -/

theorem mutateFn_some (res : metrics) (name ns : GoString) (d : GoMap) :
    mutateFn res { Name := name, Namespace := ns, Data := some d }
      = .ok { Name := name, Namespace := ns,
              Data := some ((d.set "configStale".toList (FormatBool res.configStale)).set
                "configLoaded".toList (FormatBool res.configLoaded)) } := by
  rfl

theorem mutateFn_none (res : metrics) (name ns : GoString) :
    mutateFn res { Name := name, Namespace := ns, Data := none } = .error .nilMapAssign := by
  rfl

theorem mutateFn_ok_data (res : metrics) (obj obj1 : ConfigMap) (h : mutateFn res obj = .ok obj1) :
    ∃ d, obj1.Data = some d ∧
      d.get "configLoaded".toList = some (FormatBool res.configLoaded) ∧
      d.get "configStale".toList = some (FormatBool res.configStale) := by
  obtain ⟨name, ns, data⟩ := obj
  cases data with
  | none =>
    rw [mutateFn_none] at h
    cases h
  | some d =>
    rw [mutateFn_some] at h
    cases h
    refine ⟨_, rfl, GoMap.get_set_self _ _ _, ?_⟩
    rw [GoMap.get_set_of_ne _ _ _ _ (by decide)]
    exact GoMap.get_set_self _ _ _

/-- C2, evaluated on the code: on an object whose data mapping is nil, as the
freshly built `health` is, the mutate closure panics on its first map
assignment for every sample; `CreateOrUpdate` on an absent record then ends in
that panic with no `Create`, and a cycle with a good scrape leaves the record
absent. -/
theorem C2_nil_data_panics (res : metrics) :
    mutateFn res freshHealth = .error .nilMapAssign ∧
    CreateOrUpdate .noFault none freshHealth (mutateFn res)
      = { writes := [], record := none, outcome := .panicked .nilMapAssign } ∧
    cycle (.body s1Body) .noFault none
      = { events := [.logRetrievedMetrics false true, .createOrUpdate,
                     .panicked .nilMapAssign],
          record := none } :=
  ⟨by rfl, by rfl, by rfl⟩

/-- C6 (written values): on an object with a data mapping the mutate closure
succeeds, and afterwards `configLoaded` holds `true` when the sample's
`configLoaded` is true and `false` otherwise, `configStale` likewise for the
sample's `configStale`. -/
theorem C6_written_values (res : metrics) (name ns : GoString) (d : GoMap) :
    ∃ d1, mutateFn res { Name := name, Namespace := ns, Data := some d }
        = .ok { Name := name, Namespace := ns, Data := some d1 } ∧
      d1.get "configLoaded".toList
        = some (if res.configLoaded = true then "true".toList else "false".toList) ∧
      d1.get "configStale".toList
        = some (if res.configStale = true then "true".toList else "false".toList) := by
  refine ⟨_, mutateFn_some res name ns d, ?_, ?_⟩
  · rw [GoMap.get_set_self]
    rfl
  · rw [GoMap.get_set_of_ne _ _ _ _ (by decide), GoMap.get_set_self]
    rfl

/-- C7 (data preservation): on an object with a data mapping `d` the mutate
closure leaves every key other than `configLoaded` and `configStale` as `d` has
it, present with the same value or absent; the record of scenario S4 with both
gauges true becomes the mapping `foo: bar, configLoaded: true, configStale: true`. -/
theorem C7_data_preservation (res : metrics) (name ns : GoString) (d : GoMap) :
    (∃ d1, mutateFn res { Name := name, Namespace := ns, Data := some d }
        = .ok { Name := name, Namespace := ns, Data := some d1 } ∧
      ∀ k, k ≠ "configLoaded".toList → k ≠ "configStale".toList → d1.get k = d.get k) ∧
    (∃ d2, mutateFn { configStale := true, configLoaded := true } s4Record
        = .ok { s4Record with Data := some d2 } ∧
      ∀ k, d2.get k = s4Expected.get k) := by
  refine ⟨⟨_, mutateFn_some res name ns d, ?_⟩, ⟨_, by rfl, ?_⟩⟩
  · intro k h1 h2
    rw [GoMap.get_set_of_ne _ _ _ _ h1, GoMap.get_set_of_ne _ _ _ _ h2]
  · intro k
    by_cases h1 : k = "foo".toList
    · subst h1
      rfl
    · by_cases h2 : k = "configLoaded".toList
      · subst h2
        rfl
      · by_cases h3 : k = "configStale".toList
        · subst h3
          rfl
        · have e1 : ¬ ['f', 'o', 'o'] = k := fun e => h1 e.symm
          have e2 : ¬ ['c', 'o', 'n', 'f', 'i', 'g', 'L', 'o', 'a', 'd', 'e', 'd'] = k :=
            fun e => h2 e.symm
          have e3 : ¬ ['c', 'o', 'n', 'f', 'i', 'g', 'S', 't', 'a', 'l', 'e'] = k :=
            fun e => h3 e.symm
          simp [s4Expected, GoMap.get, GoMap.set, FormatBool, e1, e2, e3]

/-! ## One cycle -/

theorem CreateOrUpdate_writes (fault : ClusterFault) (record : Option ConfigMap)
    (obj : ConfigMap) (f : ConfigMap → Except Panic ConfigMap) (e : Event)
    (he : e ∈ (CreateOrUpdate fault record obj f).writes) :
    ∃ src obj1, f src = .ok obj1 ∧ (e = .apiCreate obj1 ∨ e = .apiUpdate obj1) := by
  unfold CreateOrUpdate at he
  split at he
  · simp at he
  · split at he
    · split at he
      · simp at he
      · rename_i obj1 hf
        split at he <;> simp at he <;> exact ⟨_, obj1, hf, Or.inl he⟩
    · split at he
      · simp at he
      · rename_i obj1 hf
        split at he
        · simp at he
        · split at he <;> simp at he <;> exact ⟨_, obj1, hf, Or.inr he⟩

theorem CreateOrUpdate_record (fault : ClusterFault) (record : Option ConfigMap)
    (obj : ConfigMap) (f : ConfigMap → Except Panic ConfigMap) :
    (CreateOrUpdate fault record obj f).record = record ∨
      ∃ src obj1, f src = .ok obj1 ∧ (CreateOrUpdate fault record obj f).record = some obj1 := by
  unfold CreateOrUpdate
  split
  · exact Or.inl rfl
  · split
    · split
      · exact Or.inl rfl
      · rename_i obj1 hf
        split
        · exact Or.inl rfl
        · exact Or.inr ⟨_, obj1, hf, rfl⟩
    · split
      · exact Or.inl rfl
      · rename_i obj1 hf
        split
        · exact Or.inl rfl
        · split
          · exact Or.inl rfl
          · exact Or.inr ⟨_, obj1, hf, rfl⟩

theorem cycle_of_error (http : HTTPResult) (fault : ClusterFault) (record : Option ConfigMap)
    (err : MetricsError) (h : getMetrics http = .error err) :
    cycle http fault record = { events := [.logUnableToGetMetrics err], record := record } := by
  simp [cycle, h]

theorem cycle_of_ok (http : HTTPResult) (fault : ClusterFault) (record : Option ConfigMap)
    (res : metrics) (h : getMetrics http = .ok res) :
    (cycle http fault record).record
        = (CreateOrUpdate fault record freshHealth (mutateFn res)).record ∧
      ∀ obj, Event.apiCreate obj ∈ (cycle http fault record).events
          ∨ Event.apiUpdate obj ∈ (cycle http fault record).events →
        Event.apiCreate obj ∈ (CreateOrUpdate fault record freshHealth (mutateFn res)).writes
          ∨ Event.apiUpdate obj ∈ (CreateOrUpdate fault record freshHealth (mutateFn res)).writes := by
  simp only [cycle, h]
  split <;> simp

/-- C8 (no partial write): in a cycle in which `getMetrics` returns an error,
whichever it is, the job logs it and returns: `CreateOrUpdate` is not called and
the stored record is the one before the cycle.  In any cycle, an object handed
to `Create` or `Update`, and a stored record that differs from the one before,
has both `configLoaded` and `configStale` set from the one sample `getMetrics`
returned in that cycle. -/
theorem C8_no_partial_write (http : HTTPResult) (fault : ClusterFault)
    (record : Option ConfigMap) :
    (∀ err, getMetrics http = .error err →
      cycle http fault record = { events := [.logUnableToGetMetrics err], record := record } ∧
      Event.createOrUpdate ∉ (cycle http fault record).events ∧
      (cycle http fault record).record = record) ∧
    (∀ obj, Event.apiCreate obj ∈ (cycle http fault record).events
        ∨ Event.apiUpdate obj ∈ (cycle http fault record).events →
      ∃ res d, getMetrics http = .ok res ∧ obj.Data = some d ∧
        d.get "configLoaded".toList = some (FormatBool res.configLoaded) ∧
        d.get "configStale".toList = some (FormatBool res.configStale)) ∧
    ((cycle http fault record).record ≠ record →
      ∃ res obj d, getMetrics http = .ok res ∧ (cycle http fault record).record = some obj ∧
        obj.Data = some d ∧
        d.get "configLoaded".toList = some (FormatBool res.configLoaded) ∧
        d.get "configStale".toList = some (FormatBool res.configStale)) := by
  refine ⟨?_, ?_, ?_⟩
  · intro err h
    rw [cycle_of_error http fault record err h]
    simp
  · intro obj hobj
    cases hg : getMetrics http with
    | error err =>
      rw [cycle_of_error http fault record err hg] at hobj
      simp at hobj
    | ok res =>
      have hw := (cycle_of_ok http fault record res hg).2 obj hobj
      have key : ∀ e, e ∈ (CreateOrUpdate fault record freshHealth (mutateFn res)).writes →
          (e = .apiCreate obj ∨ e = .apiUpdate obj) → ∃ d, obj.Data = some d ∧
            d.get "configLoaded".toList = some (FormatBool res.configLoaded) ∧
            d.get "configStale".toList = some (FormatBool res.configStale) := by
        intro e he heq
        obtain ⟨src, obj1, hf, h1⟩ := CreateOrUpdate_writes _ _ _ _ e he
        have hobj1 : obj1 = obj := by
          rcases heq with heq | heq <;> rcases h1 with h1 | h1 <;> rw [heq] at h1 <;> cases h1 <;> rfl
        rw [← hobj1]
        exact mutateFn_ok_data res src obj1 hf
      rcases hw with hw | hw
      · obtain ⟨d, hd⟩ := key _ hw (Or.inl rfl)
        exact ⟨res, d, rfl, hd⟩
      · obtain ⟨d, hd⟩ := key _ hw (Or.inr rfl)
        exact ⟨res, d, rfl, hd⟩
  · intro hne
    cases hg : getMetrics http with
    | error err =>
      rw [cycle_of_error http fault record err hg] at hne
      exact absurd rfl hne
    | ok res =>
      have hr := (cycle_of_ok http fault record res hg).1
      rcases CreateOrUpdate_record fault record freshHealth (mutateFn res) with h | ⟨src, obj1, hf, h⟩
      · rw [hr, h] at hne
        exact absurd rfl hne
      · obtain ⟨d, hd⟩ := mutateFn_ok_data res src obj1 hf
        exact ⟨res, obj1, d, rfl, hr.trans h, hd⟩

/-- Witness of C8: the endpoint refuses the connection (scenario S5) while the
record of scenario S4 is stored; the job logs the transport error, does not call
`CreateOrUpdate`, and the record stays as it was. -/
theorem C8_no_partial_write_witness :
    cycle .transportError .noFault (some s4Record)
      = { events := [.logUnableToGetMetrics .executeRequest], record := some s4Record } ∧
    Event.createOrUpdate ∉ (cycle .transportError .noFault (some s4Record)).events ∧
    (cycle .transportError .noFault (some s4Record)).record = some s4Record :=
  (C8_no_partial_write .transportError .noFault (some s4Record)).1 .executeRequest (by rfl)

/-- Scenario S4 as a whole cycle: with the record `foo: bar` stored and both
gauges true, the cycle issues one `Update` and ends with the success log. -/
theorem s4_cycle :
    cycle (.body ("metallb_k8s_client_config_loaded_bool 1\n"
        ++ "metallb_k8s_client_config_stale_bool 1\n").toList) .noFault (some s4Record)
      = { events := [.logRetrievedMetrics true true, .createOrUpdate,
            .apiUpdate { s4Record with Data := some [("foo".toList, "bar".toList),
              ("configStale".toList, "true".toList), ("configLoaded".toList, "true".toList)] },
            .logWrote],
          record := some { s4Record with Data := some [("foo".toList, "bar".toList),
              ("configStale".toList, "true".toList), ("configLoaded".toList, "true".toList)] } } := by
  rfl

end HealthSidecar
